import Mathlib

/-!
Formal model of the TaskFlow task-scheduling engine (src/core/scheduler.py)
and theorems checking the specification of the engine against it.

Modelling conventions:
 -  A Python task dictionary becomes a record of optional fields; a field that
    is none models a key that is absent from the dictionary.
 -  Calendar dates (deadlines and the current date) are modelled as absolute
    day numbers; a deadline that is missing, empty or unparseable is none,
    matching the except-pass handling in the source.
 -  Python float arithmetic on these small ratios of integers is modelled by
    exact rational arithmetic; round(x) and round(x, 2) are the exact
    round-half-to-even of the rational value, which agrees with CPython away
    from double-precision rounding error (irrelevant at the magnitudes the
    engine produces and at the decision points of the theorems below).
 -  The global random source consumed by random.choice is modelled as an
    explicit stream of draws (a function from the draw index to a natural
    number); the engine consumes the stream left to right.
 -  Python sorted is a stable sort; it is embedded as the (extensionally
    equal) stable insertion sort so that it computes by kernel reduction.
-/

attribute [local semireducible] Rat.mul Rat.add Rat.inv Rat.sub

namespace Schedulo

/-- A task dictionary (scheduler.py passes plain dicts around).  Core input
fields come first; the remaining fields are the annotations the engine adds
to copies of tasks (or, for the energy fields, in place). -/
structure Task where
  id : Option Nat := none
  title : Option String := none
  estimated_time : Option Nat := none
  priority : Option Int := none
  deadline : Option Int := none
  completed : Option Bool := none
  energy_optimized_order : Option Nat := none
  energy_category : Option String := none
  allocated_time : Option Nat := none
  remaining_time : Option Nat := none
  completion_percentage : Option ℚ := none
  schedule_order : Option Nat := none
  recommended_break : Option Nat := none
  is_split_task : Option Bool := none
  original_task_id : Option (Option Nat) := none
  session_number : Option Nat := none
  total_sessions : Option Nat := none
  deriving DecidableEq, Repr

/-- Python task.get with the default 30 used for estimated_time. -/
def estT (t : Task) : Nat := t.estimated_time.getD 30

/-- Python task.get with the default 2 (Medium) used for priority. -/
def prioT (t : Task) : Int := t.priority.getD 2

/-- Python task.get with the default False used for completed. -/
def completedT (t : Task) : Bool := t.completed.getD false

/-- Python task.get with the default "Task" used for title. -/
def titleT (t : Task) : String := t.title.getD "Task"

/-- CPython round() of a rational value: nearest integer, ties to even. -/
def pyRound (q : ℚ) : Int :=
  let f : Int := ⌊q⌋
  if q - f < 1/2 then f
  else if (1 : ℚ)/2 < q - f then f + 1
  else if f % 2 = 0 then f else f + 1

/-- CPython round(x, 2): round to two decimal places, ties to even. -/
def round2 (q : ℚ) : ℚ := (pyRound (q * 100) : ℚ) / 100

/-- Base score for the priority tier, scheduler.py lines 389-396. -/
def priorityPoints (p : Int) : Int :=
  if p = 1 then 100 else if p = 2 then 50 else 10

/-- Deadline urgency bonus, scheduler.py lines 398-419.  The current date
and the deadline are day numbers; a missing or unparseable deadline earns
no bonus (the source catches the parse error and passes). -/
def urgencyBonus (today : Int) (t : Task) : Int :=
  match t.deadline with
  | none => 0
  | some dl =>
    let days := dl - today
    if days < 0 then 80
    else if days = 0 then 60
    else if days ≤ 3 then 40
    else if days ≤ 7 then 20
    else 0

/-- Small boost for shorter tasks, scheduler.py lines 421-426. -/
def durationBoost (t : Task) : Int :=
  if estT t ≤ 30 then 5 else if estT t ≤ 60 then 3 else 0

/-- calculate_priority_score inside _prioritize_tasks, lines 386-428:
priority base plus urgency bonus plus duration boost. -/
def calculate_priority_score (today : Int) (t : Task) : Int :=
  priorityPoints (prioT t) + urgencyBonus today t + durationBoost t

/-- Order used by the Python sort key (-score, estimated_time): a comes
no later than b when a scores strictly higher, or scores equal with an
estimated time no larger. -/
def sortKeyLE (today : Int) (a b : Task) : Prop :=
  calculate_priority_score today b < calculate_priority_score today a ∨
    (calculate_priority_score today a = calculate_priority_score today b ∧ estT a ≤ estT b)

instance sortKeyLE.instDec (today : Int) : DecidableRel (sortKeyLE today) := fun a b => by
  unfold sortKeyLE
  exact inferInstance

/-- _prioritize_tasks, lines 377-431: Python sorted with key
(-score, estimated_time) is the stable sort under sortKeyLE. -/
def _prioritize_tasks (today : Int) (tasks : List Task) : List Task :=
  List.insertionSort (sortKeyLE today) tasks

/-- _calculate_break_time, lines 434-443. -/
def _calculate_break_time (task_time : Nat) : Nat :=
  if task_time ≤ 30 then 5
  else if task_time ≤ 60 then 10
  else if task_time ≤ 120 then 15
  else 20

/-- Allocation loop of generate_schedule, lines 347-363.  The budget enters
the loop positive and every allocation is at most the remaining budget, so
the remaining budget is carried as a Nat and the Python break on
remaining_time <= 0 is the test remaining = 0. -/
def allocLoop : List Task → Nat → List Task
  | [], _ => []
  | task :: rest, remaining =>
    if remaining = 0 then []
    else
      let e := estT task
      let allocated := min e remaining
      if 15 ≤ allocated then
        { task with
            allocated_time := some allocated,
            remaining_time := some (e - allocated),
            completion_percentage := some (min 100 ((allocated : ℚ) / (e : ℚ) * 100)) } ::
          allocLoop rest (remaining - allocated)
      else
        allocLoop rest remaining

/-- Metadata pass of generate_schedule, lines 365-368: enumerate the
allocated tasks, writing 1-based schedule_order and recommended_break. -/
def addMeta (i : Nat) : List Task → List Task
  | [] => []
  | task :: rest =>
    { task with
        schedule_order := some (i + 1),
        recommended_break := some (_calculate_break_time (task.allocated_time.getD 0)) } ::
      addMeta (i + 1) rest

/-- generate_schedule, lines 319-374.  The extra argument today is the
current date (date.today() in the source) as a day number. -/
def generate_schedule (today : Int) (tasks : List Task) (available_time : Int) : List Task :=
  if tasks.isEmpty ∨ available_time ≤ 0 then []
  else
    let active := tasks.filter fun t => !completedT t
    if active.isEmpty then []
    else addMeta 0 (allocLoop (_prioritize_tasks today active) available_time.toNat)

/-- Result record of calculate_schedule_efficiency.  The two fields that the
early-return branch of the source does not emit are optional. -/
structure Efficiency where
  time_utilization : ℚ
  priority_score : ℚ
  task_count : Nat
  estimated_completion : ℚ
  total_allocated_time : Option Nat := none
  schedule_quality : Option String := none
  deriving DecidableEq, Repr

/-- _calculate_schedule_quality, lines 132-187. -/
def _calculate_schedule_quality (tasks : List Task) : String :=
  if tasks.isEmpty then "poor"
  else
    let high_priority := (tasks.filter fun t => t.priority == some 1).length
    let medium_priority := (tasks.filter fun t => t.priority == some 2).length
    let low_priority := (tasks.filter fun t => t.priority == some 3).length
    let score1 := (if high_priority > 0 then 30 else 0) +
      (if medium_priority > 0 then 20 else 0) + (if low_priority > 0 then 10 else 0)
    let short_tasks := (tasks.filter fun t => t.allocated_time.getD 0 ≤ 30).length
    let long_tasks := (tasks.filter fun t => t.allocated_time.getD 0 > 90).length
    let score2 := score1 +
      (if short_tasks > 0 ∧ long_tasks > 0 then 20
       else if short_tasks > 0 ∨ long_tasks > 0 then 10 else 0)
    let avg_completion := (tasks.map fun t => t.completion_percentage.getD 0).sum / (tasks.length : ℚ)
    let score3 := score2 +
      (if avg_completion ≥ 80 then 20 else if avg_completion ≥ 60 then 15
       else if avg_completion ≥ 40 then 10 else 0)
    let quality_percentage : ℚ := ((score3 : ℚ) / 100) * 100
    if quality_percentage ≥ 80 then "excellent"
    else if quality_percentage ≥ 60 then "good"
    else if quality_percentage ≥ 40 then "fair"
    else "poor"

/-- calculate_schedule_efficiency, lines 70-129. -/
def calculate_schedule_efficiency (scheduled_tasks : List Task) (available_time : Int) : Efficiency :=
  if scheduled_tasks.isEmpty ∨ available_time ≤ 0 then
    { time_utilization := 0, priority_score := 0, task_count := 0, estimated_completion := 0 }
  else
    let total_allocated_time : Nat := (scheduled_tasks.map fun t => t.allocated_time.getD 0).sum
    let time_utilization := ((total_allocated_time : ℚ) / (available_time : ℚ)) * 100
    let priority_score : Nat := (scheduled_tasks.map fun t =>
      if prioT t = 1 then t.allocated_time.getD 0 * 3
      else if prioT t = 2 then t.allocated_time.getD 0 * 2
      else t.allocated_time.getD 0 * 1).sum
    let max_possible_score := available_time * 3
    let normalized_priority_score : ℚ :=
      if max_possible_score > 0 then ((priority_score : ℚ) / (max_possible_score : ℚ)) * 100 else 0
    let total_task_time : Nat := (scheduled_tasks.map fun t => t.estimated_time.getD 0).sum
    let estimated_completion : ℚ :=
      if total_task_time > 0 then ((total_allocated_time : ℚ) / (total_task_time : ℚ)) * 100 else 0
    { time_utilization := round2 time_utilization,
      priority_score := round2 normalized_priority_score,
      task_count := scheduled_tasks.length,
      estimated_completion := round2 estimated_completion,
      total_allocated_time := some total_allocated_time,
      schedule_quality := some (_calculate_schedule_quality scheduled_tasks) }

/-- suggest_task_splitting, lines 190-232.  The per-session duration is the
float division estimated_time / num_sessions, rounded half to even; a
max_session_time of 0 hits the ZeroDivisionError path of the source, which
returns the task unchanged. -/
def suggest_task_splitting (task : Task) (max_session_time : Nat) : List Task :=
  let estimated_time := estT task
  if estimated_time ≤ max_session_time then [task]
  else if max_session_time = 0 then [task]
  else
    let num_sessions := (estimated_time + max_session_time - 1) / max_session_time
    let time_per_session : ℚ := (estimated_time : ℚ) / (num_sessions : ℚ)
    (List.range num_sessions).map fun i =>
      let session := { task with
        title := some (titleT task ++ " - Session " ++ toString (i + 1)),
        estimated_time := some (pyRound time_per_session).toNat,
        is_split_task := some true,
        original_task_id := some task.id,
        session_number := some (i + 1),
        total_sessions := some num_sessions }
      if 0 < i ∧ 1 < prioT task then { session with priority := some (min 3 (prioT task + 1)) }
      else session

/-- Entries of the list returned by generate_focus_schedule: focus-session
dictionaries and break dictionaries, as one record of optional fields. -/
structure FocusItem where
  type : String
  duration : Nat
  task_id : Option Nat := none
  task_title : Option String := none
  session_number : Option Nat := none
  total_sessions_for_task : Option Nat := none
  priority : Option Int := none
  session_count : Option Nat := none
  break_type : Option String := none
  suggestion : Option String := none
  deriving DecidableEq, Repr

/-- Fixed suggestion pool for short breaks, lines 296-302. -/
def short_break_suggestions : List String :=
  ["Stand up and stretch", "Take a few deep breaths", "Look away from your screen",
   "Drink some water", "Do a quick walk around"]

/-- Fixed suggestion pool for long breaks, lines 304-310. -/
def long_break_suggestions : List String :=
  ["Take a walk outside", "Have a healthy snack", "Do some light exercise",
   "Practice mindfulness", "Chat with a friend"]

/-- _get_break_suggestion, lines 294-316: random.choice from the matching
pool, with the random source as a stream rng consumed at draw index k. -/
def _get_break_suggestion (rng : Nat → Nat) (k : Nat) (break_type : String) : String :=
  if break_type = "long" then
    long_break_suggestions.getD (rng k % long_break_suggestions.length) ""
  else
    short_break_suggestions.getD (rng k % short_break_suggestions.length) ""

/-- Loop state of generate_focus_schedule: the running session_count, the
number of random draws consumed so far, and the schedule built so far. -/
structure FocusState where
  session_count : Nat
  draws : Nat
  sched : List FocusItem
  deriving Repr

/-- Body of the inner session loop of generate_focus_schedule, lines
258-285: emit one focus session and, unless this is the last session of the
task and the task compares equal to the last task of the list, one break. -/
def focusStep (session_length break_length : Nat) (rng : Nat → Nat) (task : Task)
    (isLast : Bool) (needed : Nat) (st : FocusState) (session : Nat) : FocusState :=
  let count := st.session_count + 1
  let fi : FocusItem :=
    { type := "focus",
      task_id := task.id,
      task_title := some (titleT task),
      session_number := some (session + 1),
      total_sessions_for_task := some needed,
      duration := min session_length (estT task - session * session_length),
      priority := some (prioT task),
      session_count := some count }
  if session < needed - 1 ∨ isLast = false then
    let bt := if count % 4 = 0 then "long" else "short"
    let bd := if bt = "long" then break_length * 3 else break_length
    let bi : FocusItem :=
      { type := "break", duration := bd, break_type := some bt,
        suggestion := some (_get_break_suggestion rng st.draws bt) }
    { session_count := count, draws := st.draws + 1, sched := st.sched ++ [fi, bi] }
  else
    { session_count := count, draws := st.draws, sched := st.sched ++ [fi] }

/-- Outer loop body of generate_focus_schedule, lines 254-285: one task,
ceil(estimated/session_length) sessions.  The Python test
task != tasks[-1] compares dictionaries by value. -/
def processTask (session_length break_length : Nat) (rng : Nat → Nat) (lastTask : Task)
    (st : FocusState) (task : Task) : FocusState :=
  let needed := (estT task + session_length - 1) / session_length
  (List.range needed).foldl
    (focusStep session_length break_length rng task (task == lastTask) needed) st

/-- generate_focus_schedule, lines 235-291.  A session_length of 0 hits the
ZeroDivisionError path, caught by the handler that returns []. -/
def generate_focus_schedule (tasks : List Task) (session_length break_length : Nat)
    (rng : Nat → Nat) : List FocusItem :=
  if h : tasks = [] then []
  else if session_length = 0 then []
  else
    (tasks.foldl
      (processTask session_length break_length rng (tasks.getLast h))
      { session_count := 0, draws := 0, sched := [] }).sched

/-- Energy category of a task, computed from its priority and estimated
time exactly as the classification loop of optimize_schedule_for_energy,
lines 31-41, fills the three buckets. -/
def energyCategory (t : Task) : String :=
  if prioT t = 1 ∧ estT t > 60 then "high"
  else if prioT t = 1 ∨ estT t > 90 then "medium"
  else "low"

/-- Bucket concatenation of optimize_schedule_for_energy, lines 43-52.
Tasks are tagged with their input position so that value-equal records at
different positions stay distinguishable. -/
def energyOrdered (tagged : List (Nat × Task)) (energy_pattern : String) : List (Nat × Task) :=
  let high := tagged.filter fun p => energyCategory p.2 == "high"
  let medium := tagged.filter fun p => energyCategory p.2 == "medium"
  let low := tagged.filter fun p => energyCategory p.2 == "low"
  if energy_pattern = "morning" then high ++ medium ++ low
  else if energy_pattern = "afternoon" then medium ++ high ++ low
  else low ++ medium ++ high

/-- Annotation written by the metadata loop of optimize_schedule_for_energy,
lines 54-61, into the task dictionary at position i of the optimized order. -/
def annotateEnergy (i : Nat) (t : Task) : Task :=
  { t with energy_optimized_order := some (i + 1), energy_category := some (energyCategory t) }

/-- optimize_schedule_for_energy, lines 11-67: the returned reordered list. -/
def optimize_schedule_for_energy (tasks : List Task) (energy_pattern : String) : List Task :=
  if tasks.isEmpty then []
  else (energyOrdered tasks.enum energy_pattern).enum.map fun q => annotateEnergy q.1 q.2.2

/-- State of the caller-supplied records after optimize_schedule_for_energy
returns: the metadata loop at lines 54-61 writes its annotations into the
original dictionaries (the returned list holds the same objects), so every
input record gains the two energy fields, keyed by its position in the
optimized order. -/
def optimize_post_inputs (tasks : List Task) (energy_pattern : String) : List Task :=
  if tasks.isEmpty then tasks
  else
    let ordered := energyOrdered tasks.enum energy_pattern
    tasks.enum.map fun p => annotateEnergy (ordered.findIdx fun q => q.1 == p.1) p.2

/-! Derived notions used to state the claims. -/

/-- Sum of the allocated_time fields of a schedule. -/
def sumAlloc (l : List Task) : Nat := (l.map fun t => t.allocated_time.getD 0).sum

/-- Sum of the (defaulted) estimated times of a task list. -/
def sumEst (l : List Task) : Nat := (l.map estT).sum

/-- A schedule entry is a partial allocation when it received strictly less
than its estimated time. -/
def isCut (t : Task) : Bool := decide (t.allocated_time.getD 0 < estT t)

/-- Number of partial allocations in a schedule. -/
def cutCount (l : List Task) : Nat := l.countP isCut

/-- Erase the five fields generate_schedule writes on its copies; two tasks
with the same erasure agree on every field the allocator does not touch. -/
def clearSched (t : Task) : Task :=
  { t with allocated_time := none, remaining_time := none,
           completion_percentage := none, schedule_order := none, recommended_break := none }

/-- Erase the two fields optimize_schedule_for_energy writes. -/
def clearEnergy (t : Task) : Task :=
  { t with energy_optimized_order := none, energy_category := none }

/-- Erase the break-suggestion text of a focus-plan entry. -/
def clearSuggestion (x : FocusItem) : FocusItem := { x with suggestion := none }

/-- Entry of a full (non-partial) allocation of a task, as built by the
allocation loop when the whole estimate fits the remaining budget. -/
def fullAlloc (t : Task) : Task :=
  { t with allocated_time := some (estT t), remaining_time := some 0,
           completion_percentage := some 100 }

/-- Checker state for the break cadence of a focus plan: waiting for the
next focus session (k sessions seen), waiting for the break that must
follow the k-th session, or failed. -/
inductive CadState where
  | waitFocus (k : Nat)
  | waitBreak (k : Nat)
  | bad
  deriving DecidableEq, Repr

/-- A focus-plan entry of type focus. -/
def isFocus (x : FocusItem) : Bool := x.type == "focus"

/-- The break demanded after the k-th emitted focus session: a long break
of three times break_length when k is a multiple of 4, otherwise a short
break of break_length. -/
def goodBreak (break_length k : Nat) (x : FocusItem) : Bool :=
  x.type == "break" &&
    (if k % 4 = 0 then x.break_type == some "long" && x.duration == break_length * 3
     else x.break_type == some "short" && x.duration == break_length)

/-- One checker transition. -/
def cadStep (break_length : Nat) : CadState → FocusItem → CadState
  | .waitFocus k, x => if isFocus x then .waitBreak (k + 1) else .bad
  | .waitBreak k, x => if goodBreak break_length k x then .waitFocus k else .bad
  | .bad, _ => .bad

/-- Break cadence demanded by the specification: focus sessions and breaks
alternate, the break after the k-th session is long exactly when k is a
multiple of 4, and no break follows the final session (a nonempty plan ends
on a focus session). -/
def cadenceOk (break_length : Nat) (l : List FocusItem) : Bool :=
  match l.foldl (cadStep break_length) (CadState.waitFocus 0) with
  | .waitBreak _ => true
  | .waitFocus k => k == 0
  | .bad => false


theorem sumAlloc_cons (t : Task) (l : List Task) :
    sumAlloc (t :: l) = t.allocated_time.getD 0 + sumAlloc l := rfl

theorem sumEst_cons (t : Task) (l : List Task) :
    sumEst (t :: l) = estT t + sumEst l := rfl

theorem allocEntry_allocated (t : Task) (a r : Nat) (c : ℚ) :
    ({ t with
        allocated_time := some a,
        remaining_time := some r,
        completion_percentage := some c } : Task).allocated_time = some a := rfl

theorem isCut_allocEntry (t : Task) (a r : Nat) (c : ℚ) :
    isCut { t with
        allocated_time := some a,
        remaining_time := some r,
        completion_percentage := some c } = decide (a < estT t) := rfl

theorem clearSched_allocEntry (t : Task) (a r : Nat) (c : ℚ) :
    clearSched { t with
        allocated_time := some a,
        remaining_time := some r,
        completion_percentage := some c } = clearSched t := rfl

theorem allocLoop_cons (t : Task) (rest : List Task) (R : Nat) :
    allocLoop (t :: rest) R =
      if R = 0 then []
      else if 15 ≤ min (estT t) R then
        { t with
            allocated_time := some (min (estT t) R),
            remaining_time := some (estT t - min (estT t) R),
            completion_percentage :=
              some (min 100 (((min (estT t) R : Nat) : ℚ) / ((estT t : Nat) : ℚ) * 100)) } ::
          allocLoop rest (R - min (estT t) R)
      else allocLoop rest R := rfl

theorem allocLoop_nil (R : Nat) : allocLoop [] R = [] := rfl

theorem allocLoop_zero (l : List Task) : allocLoop l 0 = [] := by
  cases l <;> rfl

theorem allocLoop_sum_le (l : List Task) : ∀ R : Nat, sumAlloc (allocLoop l R) ≤ R := by
  induction l with
  | nil => intro R; exact Nat.zero_le R
  | cons t rest ih =>
    intro R
    rw [allocLoop_cons]
    by_cases h0 : R = 0
    · rw [if_pos h0]; exact Nat.zero_le R
    · rw [if_neg h0]
      by_cases h15 : 15 ≤ min (estT t) R
      · rw [if_pos h15, sumAlloc_cons, allocEntry_allocated]
        have hle := ih (R - min (estT t) R)
        have hmin : min (estT t) R ≤ R := Nat.min_le_right _ _
        simp only [Option.getD_some]
        omega
      · rw [if_neg h15]
        exact ih R

theorem allocLoop_full (l : List Task) :
    ∀ R : Nat, (∀ t ∈ l, 15 ≤ estT t) → sumEst l ≤ R →
      allocLoop l R = l.map fullAlloc := by
  induction l with
  | nil => intro R _ _; rfl
  | cons t rest ih =>
    intro R hall hsum
    have ht : 15 ≤ estT t := hall t (List.mem_cons_self t rest)
    have hsum2 : estT t + sumEst rest ≤ R := by
      rw [sumEst_cons] at hsum
      omega
    have h0 : ¬ (R = 0) := by omega
    have hminEq : min (estT t) R = estT t := Nat.min_eq_left (by omega)
    have hq : ((estT t : Nat) : ℚ) ≠ 0 := by
      have hpos : (0 : Nat) < estT t := by omega
      exact_mod_cast Nat.pos_iff_ne_zero.mp hpos
    rw [allocLoop_cons, if_neg h0, hminEq, if_pos ht,
      ih (R - estT t) (fun u hu => hall u (List.mem_cons_of_mem t hu)) (by omega)]
    rw [div_self hq, one_mul, min_self, Nat.sub_self]
    rfl

theorem allocLoop_ten (l : List Task) : allocLoop l 10 = [] := by
  induction l with
  | nil => rfl
  | cons t rest ih =>
    have h15 : ¬ (15 ≤ min (estT t) 10) := by
      have h := Nat.min_le_right (estT t) 10
      omega
    rw [allocLoop_cons]
    by_cases h0 : (10 : Nat) = 0
    · rw [if_pos h0]
    · rw [if_neg h0, if_neg h15, ih]

theorem cutCount_nil : cutCount [] = 0 := rfl

theorem cutCount_cons (t : Task) (l : List Task) :
    cutCount (t :: l) = cutCount l + if isCut t then 1 else 0 :=
  List.countP_cons isCut t l

theorem estT_allocEntry (t : Task) (a r : Nat) (c : ℚ) :
    estT { t with
        allocated_time := some a,
        remaining_time := some r,
        completion_percentage := some c } = estT t := rfl

theorem allocLoop_cut (l : List Task) :
    ∀ R : Nat, cutCount (allocLoop l R) ≤ 1 ∧
      (1 ≤ cutCount (allocLoop l R) → sumAlloc (allocLoop l R) = R) := by
  induction l with
  | nil =>
    intro R
    rw [allocLoop_nil]
    exact ⟨Nat.zero_le 1, fun h => absurd h (by rw [cutCount_nil]; omega)⟩
  | cons t rest ih =>
    intro R
    rw [allocLoop_cons]
    by_cases h0 : R = 0
    · rw [if_pos h0]
      exact ⟨Nat.zero_le 1, fun h => absurd h (by rw [cutCount_nil]; omega)⟩
    · rw [if_neg h0]
      by_cases h15 : 15 ≤ min (estT t) R
      · rw [if_pos h15]
        by_cases hfull : estT t ≤ R
        · have hminEq : min (estT t) R = estT t := Nat.min_eq_left hfull
          have hhead : isCut { t with
              allocated_time := some (min (estT t) R),
              remaining_time := some (estT t - min (estT t) R),
              completion_percentage :=
                some (min 100 (((min (estT t) R : Nat) : ℚ) / ((estT t : Nat) : ℚ) * 100)) } = false := by
            rw [isCut_allocEntry, hminEq]
            simp
          obtain ⟨ihc, ihs⟩ := ih (R - min (estT t) R)
          rw [cutCount_cons, hhead, if_neg Bool.false_ne_true, sumAlloc_cons, allocEntry_allocated]
          refine ⟨by omega, fun hge => ?_⟩
          have hs := ihs (by omega)
          have hmin : min (estT t) R ≤ R := Nat.min_le_right _ _
          simp only [Option.getD_some]
          omega
        · have hminEq : min (estT t) R = R := Nat.min_eq_right (by omega)
          have hhead : isCut { t with
              allocated_time := some (min (estT t) R),
              remaining_time := some (estT t - min (estT t) R),
              completion_percentage :=
                some (min 100 (((min (estT t) R : Nat) : ℚ) / ((estT t : Nat) : ℚ) * 100)) } = true := by
            rw [isCut_allocEntry, hminEq]
            simp only [decide_eq_true_eq]
            omega
          have htail : allocLoop rest (R - min (estT t) R) = [] := by
            rw [hminEq, Nat.sub_self]
            exact allocLoop_zero rest
          rw [htail, cutCount_cons, cutCount_nil, hhead, if_pos rfl, sumAlloc_cons,
            allocEntry_allocated]
          refine ⟨by omega, fun _ => ?_⟩
          simp only [Option.getD_some, sumAlloc, List.map_nil, List.sum_nil]
          omega
      · rw [if_neg h15]
        exact ih R

theorem allocLoop_mem {s : Task} :
    ∀ (l : List Task) (R : Nat), s ∈ allocLoop l R →
      ∃ t ∈ l, clearSched s = clearSched t := by
  intro l
  induction l with
  | nil => intro R h; cases h
  | cons t rest ih =>
    intro R h
    rw [allocLoop_cons] at h
    by_cases h0 : R = 0
    · rw [if_pos h0] at h; cases h
    · rw [if_neg h0] at h
      by_cases h15 : 15 ≤ min (estT t) R
      · rw [if_pos h15] at h
        rcases List.mem_cons.mp h with he | he
        · refine ⟨t, List.mem_cons_self t rest, ?_⟩
          rw [he, clearSched_allocEntry]
        · obtain ⟨u, hu, hc⟩ := ih _ he
          exact ⟨u, List.mem_cons_of_mem t hu, hc⟩
      · rw [if_neg h15] at h
        obtain ⟨u, hu, hc⟩ := ih _ h
        exact ⟨u, List.mem_cons_of_mem t hu, hc⟩

theorem metaEntry_clearSched (t : Task) (o b : Nat) :
    clearSched { t with schedule_order := some o, recommended_break := some b } = clearSched t := rfl

theorem metaEntry_isCut (t : Task) (o b : Nat) :
    isCut { t with schedule_order := some o, recommended_break := some b } = isCut t := rfl

theorem metaEntry_remaining (t : Task) (o b : Nat) :
    ({ t with
        schedule_order := some o,
        recommended_break := some b } : Task).remaining_time = t.remaining_time := rfl

theorem addMeta_length (i : Nat) (l : List Task) : (addMeta i l).length = l.length := by
  induction l generalizing i with
  | nil => rfl
  | cons t rest ih => simp [addMeta, ih]

theorem addMeta_sumAlloc (i : Nat) (l : List Task) : sumAlloc (addMeta i l) = sumAlloc l := by
  induction l generalizing i with
  | nil => rfl
  | cons t rest ih =>
    rw [addMeta, sumAlloc_cons, sumAlloc_cons, ih (i + 1)]

theorem addMeta_cutCount (i : Nat) (l : List Task) : cutCount (addMeta i l) = cutCount l := by
  induction l generalizing i with
  | nil => rfl
  | cons t rest ih =>
    rw [addMeta, cutCount_cons, cutCount_cons, ih (i + 1), metaEntry_isCut]

theorem addMeta_mem {s : Task} :
    ∀ (i : Nat) (l : List Task), s ∈ addMeta i l →
      ∃ u ∈ l, clearSched s = clearSched u ∧ isCut s = isCut u ∧
        s.remaining_time = u.remaining_time := by
  intro i l
  induction l generalizing i with
  | nil => intro h; cases h
  | cons t rest ih =>
    intro h
    rw [addMeta] at h
    rcases List.mem_cons.mp h with he | he
    · refine ⟨t, List.mem_cons_self t rest, ?_, ?_, ?_⟩
      · rw [he, metaEntry_clearSched]
      · rw [he, metaEntry_isCut]
      · rw [he, metaEntry_remaining]
    · obtain ⟨u, hu, h1, h2, h3⟩ := ih (i + 1) he
      exact ⟨u, List.mem_cons_of_mem t hu, h1, h2, h3⟩

theorem sumEst_filter_le (p : Task → Bool) (l : List Task) :
    sumEst (l.filter p) ≤ sumEst l := by
  induction l with
  | nil => exact Nat.le_refl 0
  | cons t rest ih =>
    rw [List.filter_cons]
    cases hp : p t
    · rw [sumEst_cons]
      simp only [Bool.false_eq_true, if_false]
      omega
    · simp only [if_true]
      rw [sumEst_cons, sumEst_cons]
      omega

theorem mem_sumEst_le {t : Task} {l : List Task} (h : t ∈ l) : estT t ≤ sumEst l := by
  induction l with
  | nil => cases h
  | cons u rest ih =>
    rw [sumEst_cons]
    rcases List.mem_cons.mp h with he | he
    · rw [he]; omega
    · have := ih he; omega

theorem generate_schedule_sumAlloc_le (today : Int) (tasks : List Task) (T : Int) :
    sumAlloc (generate_schedule today tasks T) ≤ T.toNat := by
  unfold generate_schedule
  by_cases hg : tasks.isEmpty = true ∨ T ≤ 0
  · rw [if_pos hg]; exact Nat.zero_le _
  · rw [if_neg hg]
    by_cases ha : (tasks.filter fun t => !completedT t).isEmpty = true
    · rw [if_pos ha]; exact Nat.zero_le _
    · rw [if_neg ha, addMeta_sumAlloc]
      exact allocLoop_sum_le _ _

theorem pyRound_le_int {q : ℚ} {n : Int} (h : q ≤ (n : ℚ)) : pyRound q ≤ n := by
  unfold pyRound
  have hf : ⌊q⌋ ≤ n := by
    have hh := Int.floor_le_floor h
    rwa [Int.floor_intCast] at hh
  by_cases h1 : q - (⌊q⌋ : ℚ) < 1/2
  · simp only [if_pos h1]
    exact hf
  · have hlt : (⌊q⌋ : ℚ) < q := by
      have hge : (1 : ℚ)/2 ≤ q - (⌊q⌋ : ℚ) := le_of_not_lt h1
      linarith
    have hfn : ⌊q⌋ < n := by
      have hc : (⌊q⌋ : ℚ) < (n : ℚ) := lt_of_lt_of_le hlt h
      exact_mod_cast hc
    simp only [if_neg h1]
    split_ifs <;> omega

theorem pyRound_intCast (n : Int) : pyRound (n : ℚ) = n := by
  unfold pyRound
  simp only [Int.floor_intCast, sub_self]
  norm_num

theorem round2_le_hundred {q : ℚ} (h : q ≤ 100) : round2 q ≤ 100 := by
  unfold round2
  have h1 : q * 100 ≤ ((10000 : Int) : ℚ) := by push_cast; linarith
  have h2 : pyRound (q * 100) ≤ 10000 := pyRound_le_int h1
  have h3 : ((pyRound (q * 100)) : ℚ) ≤ 10000 := by exact_mod_cast h2
  linarith

theorem round2_hundred : round2 100 = 100 := by
  unfold round2
  have h1 : (100 : ℚ) * 100 = ((10000 : Int) : ℚ) := by norm_num
  rw [h1, pyRound_intCast]
  norm_num

theorem prioritize_perm (today : Int) (l : List Task) : (_prioritize_tasks today l).Perm l := by
  unfold _prioritize_tasks
  exact List.perm_insertionSort _ _

/-- C7: for every nonpositive budget generate_schedule returns the empty
schedule, and the empty task list yields the empty schedule for every
budget; the function is total (the source catches all errors) and builds
entries only from copies, so no input record is modified. -/
theorem C7_degenerate_inputs (today : Int) (tasks : List Task) (T : Int) :
    (T ≤ 0 → generate_schedule today tasks T = []) ∧
    generate_schedule today [] T = [] := by
  constructor
  · intro h
    unfold generate_schedule
    rw [if_pos (Or.inr h)]
  · rfl

/-- C7 witness: a nonpositive budget with a nonempty task list, and the
empty task list with a positive budget, both yield the empty schedule. -/
theorem C7_degenerate_inputs_witness :
    ((-5 : Int) ≤ 0 ∧ generate_schedule 3 [{ estimated_time := some 30 }] (-5) = []) ∧
    generate_schedule 3 [] 60 = [] :=
  ⟨⟨by decide, (C7_degenerate_inputs 3 [{ estimated_time := some 30 }] (-5)).1 (by decide)⟩,
   (C7_degenerate_inputs 3 [] 60).2⟩

/-- C10: every entry of a generated schedule derives from a non-completed
input task: it agrees with that task on every field the allocator does not
write, and tasks whose completed flag is set are silently excluded. -/
theorem C10_completed_excluded (today : Int) (tasks : List Task) (T : Int) :
    ∀ s ∈ generate_schedule today tasks T,
      ∃ t ∈ tasks, completedT t = false ∧ clearSched s = clearSched t := by
  intro s hs
  unfold generate_schedule at hs
  by_cases hg : tasks.isEmpty = true ∨ T ≤ 0
  · rw [if_pos hg] at hs
    cases hs
  · rw [if_neg hg] at hs
    by_cases ha : (tasks.filter fun t => !completedT t).isEmpty = true
    · rw [if_pos ha] at hs
      cases hs
    · rw [if_neg ha] at hs
      obtain ⟨u, hu, hcl, _, _⟩ := addMeta_mem 0 _ hs
      obtain ⟨v, hv, hcv⟩ := allocLoop_mem _ _ hu
      have hvmem : v ∈ tasks.filter fun t => !completedT t :=
        (prioritize_perm today _).subset hv
      rw [List.mem_filter] at hvmem
      refine ⟨v, hvmem.1, ?_, hcl.trans hcv⟩
      simpa using hvmem.2

/-- C10 witness: the single scheduled entry of a concrete call derives
from the (non-completed) input task. -/
theorem C10_completed_excluded_witness :
    ∃ t ∈ [({ estimated_time := some 30 } : Task)], completedT t = false ∧
      clearSched
        { estimated_time := some 30,
          allocated_time := some 30,
          remaining_time := some 0,
          completion_percentage := some 100,
          schedule_order := some 1,
          recommended_break := some 5 } = clearSched t :=
  C10_completed_excluded 0 [{ estimated_time := some 30 }] 100
    { estimated_time := some 30,
      allocated_time := some 30,
      remaining_time := some 0,
      completion_percentage := some 100,
      schedule_order := some 1,
      recommended_break := some 5 } (by decide)

/-- C1 counterexample: a single active 10-minute task fits a 100-minute
budget on its own and in total, yet the schedule is empty rather than
holding one entry: the allocator silently drops any allocation under the
15-minute minimum chunk, so the claim fails without a lower bound on
durations. -/
theorem C1_counterexample :
    (∀ t ∈ [({ estimated_time := some 10 } : Task)],
        (estT t : Int) ≤ 100 ∧ completedT t = false) ∧
    (sumEst [({ estimated_time := some 10 } : Task)] : Int) ≤ 100 ∧
    generate_schedule 0 [({ estimated_time := some 10 } : Task)] 100 = [] := by
  refine ⟨?_, by decide, by decide⟩
  decide

/-- C1 (amended): with the added assumption that every active task lasts at
least the 15-minute minimum useful chunk, a task list whose durations all
fit the budget individually and in total is scheduled completely: one entry
per active (non-completed) task, allocated time summing to the estimates,
and no partial allocation (every entry keeps remaining time 0). -/
theorem C1_full_allocation (today : Int) (tasks : List Task) (T : Int)
    (_hfit : ∀ t ∈ tasks, (estT t : Int) ≤ T)
    (hsum : (sumEst tasks : Int) ≤ T)
    (hmin : ∀ t ∈ tasks, completedT t = false → 15 ≤ estT t) :
    (generate_schedule today tasks T).length = (tasks.filter fun t => !completedT t).length ∧
    sumAlloc (generate_schedule today tasks T) = sumEst (tasks.filter fun t => !completedT t) ∧
    ∀ s ∈ generate_schedule today tasks T, s.remaining_time = some 0 ∧ isCut s = false := by
  unfold generate_schedule
  by_cases hg : tasks.isEmpty = true ∨ T ≤ 0
  · rw [if_pos hg]
    have hfe : (tasks.filter fun t => !completedT t) = [] := by
      rcases hg with hg | hg
      · rw [List.isEmpty_iff] at hg
        rw [hg]
        rfl
      · by_contra hne
        obtain ⟨t, ht⟩ := List.exists_mem_of_ne_nil _ hne
        rw [List.mem_filter] at ht
        have h15 := hmin t ht.1 (by simpa using ht.2)
        have hle := mem_sumEst_le ht.1
        have hc : (15 : Int) ≤ (sumEst tasks : Int) := by exact_mod_cast le_trans h15 hle
        omega
    rw [hfe]
    exact ⟨rfl, rfl, fun s hs => absurd hs (List.not_mem_nil s)⟩
  · rw [if_neg hg]
    by_cases ha : (tasks.filter fun t => !completedT t).isEmpty = true
    · rw [if_pos ha]
      rw [List.isEmpty_iff] at ha
      rw [ha]
      exact ⟨rfl, rfl, fun s hs => absurd hs (List.not_mem_nil s)⟩
    · rw [if_neg ha]
      have hperm := prioritize_perm today (tasks.filter fun t => !completedT t)
      have hallS : ∀ t ∈ _prioritize_tasks today (tasks.filter fun t => !completedT t),
          15 ≤ estT t := by
        intro t ht
        have hmem := hperm.subset ht
        rw [List.mem_filter] at hmem
        exact hmin t hmem.1 (by simpa using hmem.2)
      have hsumS : sumEst (_prioritize_tasks today (tasks.filter fun t => !completedT t)) ≤
          T.toNat := by
        have he : sumEst (_prioritize_tasks today (tasks.filter fun t => !completedT t)) =
            sumEst (tasks.filter fun t => !completedT t) := by
          unfold sumEst
          exact (hperm.map estT).sum_eq
        have h2 := sumEst_filter_le (fun t => !completedT t) tasks
        have h3 : ((sumEst (tasks.filter fun t => !completedT t) : Nat) : Int) ≤ T :=
          le_trans (by exact_mod_cast h2) hsum
        omega
      rw [allocLoop_full _ _ hallS hsumS]
      refine ⟨?_, ?_, ?_⟩
      · rw [addMeta_length, List.length_map]
        exact hperm.length_eq
      · rw [addMeta_sumAlloc]
        have h1 : sumAlloc (List.map fullAlloc
            (_prioritize_tasks today (tasks.filter fun t => !completedT t))) =
            sumEst (_prioritize_tasks today (tasks.filter fun t => !completedT t)) := by
          unfold sumAlloc sumEst
          rw [List.map_map]
          rfl
        rw [h1]
        unfold sumEst
        exact (hperm.map estT).sum_eq
      · intro s hs
        obtain ⟨u, hu, _, hcut, hrem⟩ := addMeta_mem 0 _ hs
        obtain ⟨v, hv, hfv⟩ := List.mem_map.mp hu
        constructor
        · rw [hrem, ← hfv]
          rfl
        · rw [hcut, ← hfv]
          simp [isCut, fullAlloc, estT]

/-- C1 witness: two tasks of 20 and 45 minutes against a 100-minute budget
satisfy the hypotheses and are both scheduled fully. -/
theorem C1_full_allocation_witness :
    ((∀ t ∈ [({ estimated_time := some 20 } : Task),
        { estimated_time := some 45, priority := some 1 }], (estT t : Int) ≤ 100) ∧
      (sumEst [({ estimated_time := some 20 } : Task),
        { estimated_time := some 45, priority := some 1 }] : Int) ≤ 100 ∧
      (∀ t ∈ [({ estimated_time := some 20 } : Task),
        { estimated_time := some 45, priority := some 1 }],
        completedT t = false → 15 ≤ estT t)) ∧
    (generate_schedule 0 [({ estimated_time := some 20 } : Task),
      { estimated_time := some 45, priority := some 1 }] 100).length = 2 :=
  ⟨⟨by decide, by decide, by decide⟩,
    (C1_full_allocation 0 _ 100 (by decide) (by decide) (by decide)).1.trans (by decide)⟩

/-- C2: the allocation loop with 10 minutes of remaining budget schedules
nothing more, while 20 remaining minutes can produce one further (partial)
entry allocated the whole remainder; any generated schedule holds at most
one partial allocation, and when one occurs the allocations exhaust the
whole budget (the remaining budget is zero). -/
theorem C2_minimum_chunk :
    (∀ l : List Task, allocLoop l 10 = []) ∧
    (allocLoop [{ estimated_time := some 30 }] 20 =
      [{ estimated_time := some 30,
         allocated_time := some 20,
         remaining_time := some 10,
         completion_percentage := some (200/3) }]) ∧
    (∀ (today : Int) (tasks : List Task) (T : Int),
      cutCount (generate_schedule today tasks T) ≤ 1) ∧
    (∀ (today : Int) (tasks : List Task) (T : Int),
      1 ≤ cutCount (generate_schedule today tasks T) →
        (sumAlloc (generate_schedule today tasks T) : Int) = T) := by
  refine ⟨allocLoop_ten, by decide, ?_, ?_⟩
  · intro today tasks T
    unfold generate_schedule
    by_cases hg : tasks.isEmpty = true ∨ T ≤ 0
    · rw [if_pos hg, cutCount_nil]
      omega
    · rw [if_neg hg]
      by_cases ha : (tasks.filter fun t => !completedT t).isEmpty = true
      · rw [if_pos ha, cutCount_nil]
        omega
      · rw [if_neg ha, addMeta_cutCount]
        exact (allocLoop_cut _ _).1
  · intro today tasks T h
    unfold generate_schedule at h ⊢
    by_cases hg : tasks.isEmpty = true ∨ T ≤ 0
    · rw [if_pos hg, cutCount_nil] at h
      omega
    · rw [if_neg hg] at h ⊢
      by_cases ha : (tasks.filter fun t => !completedT t).isEmpty = true
      · rw [if_pos ha, cutCount_nil] at h
        omega
      · rw [if_neg ha] at h ⊢
        rw [addMeta_cutCount] at h
        rw [addMeta_sumAlloc, (allocLoop_cut _ T.toNat).2 h]
        have hT : ¬ T ≤ 0 := (not_or.mp hg).2
        omega

/-- C2 witness: a 30-minute then 100-minute queue against 110 minutes ends
with one partial allocation that empties the budget, and the loop parts are
applied at the concrete inputs of the theorem. -/
theorem C2_minimum_chunk_witness :
    (allocLoop [({ estimated_time := some 25 } : Task)] 10 = []) ∧
    (1 ≤ cutCount (generate_schedule 0 [({ estimated_time := some 100 } : Task),
        { estimated_time := some 30 }] 110)) ∧
    (sumAlloc (generate_schedule 0 [({ estimated_time := some 100 } : Task),
        { estimated_time := some 30 }] 110) : Int) = 110 :=
  ⟨C2_minimum_chunk.1 [{ estimated_time := some 25 }], by decide,
    C2_minimum_chunk.2.2.2 0 [{ estimated_time := some 100 }, { estimated_time := some 30 }] 110
      (by decide)⟩

/-- C9 counterexample: one 20000-minute task against a 20001-minute budget
is allocated 20000 minutes, one minute short of the budget, yet the
two-decimal rounding of the diagnostics reports exactly 100 percent time
utilization, refuting the only-if direction of the claim. -/
theorem C9_counterexample :
    (calculate_schedule_efficiency
        (generate_schedule 0 [{ estimated_time := some 20000 }] 20001) 20001).time_utilization
        = 100 ∧
    (sumAlloc (generate_schedule 0 [{ estimated_time := some 20000 }] 20001) : Int) ≠ 20001 :=
  ⟨by decide, by decide⟩

/-- C9 (amended): for every positive budget the diagnostics of a generated
schedule report a time utilization of at most 100, and report exactly 100
whenever the allocated times sum to the budget; the converse implication of
the original claim is false because of two-decimal rounding. -/
theorem C9_time_utilization (today : Int) (tasks : List Task) (T : Int) (hT : 0 < T) :
    (calculate_schedule_efficiency (generate_schedule today tasks T) T).time_utilization ≤ 100 ∧
    ((sumAlloc (generate_schedule today tasks T) : Int) = T →
      (calculate_schedule_efficiency (generate_schedule today tasks T) T).time_utilization
        = 100) := by
  have hle : sumAlloc (generate_schedule today tasks T) ≤ T.toNat :=
    generate_schedule_sumAlloc_le today tasks T
  unfold calculate_schedule_efficiency
  by_cases hg : (generate_schedule today tasks T).isEmpty = true ∨ T ≤ 0
  · rw [if_pos hg]
    constructor
    · norm_num
    · intro hsum
      rcases hg with hg | hg
      · rw [List.isEmpty_iff] at hg
        rw [hg] at hsum
        have h0 : sumAlloc ([] : List Task) = 0 := rfl
        rw [h0] at hsum
        omega
      · omega
  · rw [if_neg hg]
    have hTq : (0 : ℚ) < (T : ℚ) := by exact_mod_cast hT
    have hSle : ((sumAlloc (generate_schedule today tasks T) : Nat) : ℚ) ≤ (T : ℚ) := by
      have h1 : ((sumAlloc (generate_schedule today tasks T) : Nat) : Int) ≤ T := by omega
      exact_mod_cast h1
    constructor
    · show round2 (((sumAlloc (generate_schedule today tasks T) : Nat) : ℚ) / (T : ℚ) * 100)
        ≤ 100
      have hq : ((sumAlloc (generate_schedule today tasks T) : Nat) : ℚ) / (T : ℚ) * 100
          ≤ 100 := by
        have h1 : ((sumAlloc (generate_schedule today tasks T) : Nat) : ℚ) / (T : ℚ) ≤ 1 :=
          (div_le_one hTq).mpr hSle
        linarith
      exact round2_le_hundred hq
    · intro hsum
      show round2 (((sumAlloc (generate_schedule today tasks T) : Nat) : ℚ) / (T : ℚ) * 100)
        = 100
      have hS : ((sumAlloc (generate_schedule today tasks T) : Nat) : ℚ) = (T : ℚ) := by
        exact_mod_cast hsum
      rw [hS, div_self (ne_of_gt hTq), one_mul]
      exact round2_hundred

/-- C9 witness: a 30-minute task against a 30-minute budget reaches exactly
100 percent utilization via the amended theorem. -/
theorem C9_time_utilization_witness :
    ((0 : Int) < 30) ∧
    (sumAlloc (generate_schedule 0 [({ estimated_time := some 30 } : Task)] 30) : Int) = 30 ∧
    (calculate_schedule_efficiency
      (generate_schedule 0 [({ estimated_time := some 30 } : Task)] 30) 30).time_utilization
      = 100 :=
  ⟨by decide, by decide,
    (C9_time_utilization 0 [{ estimated_time := some 30 }] 30 (by decide)).2 (by decide)⟩

/-- C3 counterexample: splitting a 150-minute task of priority High
(numeric 1) with 90-minute sessions leaves the second sub-task at priority
1: the demotion guard of the source requires a numeric priority above 1, so
a High task is never demoted, contrary to the claim. -/
theorem C3_counterexample :
    (suggest_task_splitting { estimated_time := some 150, priority := some 1 } 90).map
      (fun s => s.priority) = [some 1, some 1] := by decide

/-- C3 (amended): splitting a 150-minute task with 90-minute sessions
yields exactly two 75-minute sub-tasks; sub-tasks after the first keep the
original priority when its numeric value is 1 (High) and otherwise receive
min 3 (priority + 1) - so Medium is demoted one step to Low, Low stays Low,
and High is never demoted. -/
theorem C3_split_sessions :
    ((suggest_task_splitting { estimated_time := some 150, priority := some 1 } 90).map
      (fun s => (s.estimated_time, s.priority)) = [(some 75, some 1), (some 75, some 1)]) ∧
    ((suggest_task_splitting { estimated_time := some 150, priority := some 2 } 90).map
      (fun s => (s.estimated_time, s.priority)) = [(some 75, some 2), (some 75, some 3)]) ∧
    (∀ (task : Task) (mst i : Nat) (s : Task),
      (suggest_task_splitting task mst).get? i = some s → 0 < i →
      s.priority = if 1 < prioT task then some (min 3 (prioT task + 1)) else task.priority) := by
  refine ⟨by decide, by decide, ?_⟩
  intro task mst i s hget hi
  unfold suggest_task_splitting at hget
  by_cases h1 : estT task ≤ mst
  · rw [if_pos h1] at hget
    match i, hi with
    | Nat.succ n, _ =>
      have : ([task].get? (Nat.succ n)) = none := rfl
      rw [this] at hget
      cases hget
  · rw [if_neg h1] at hget
    by_cases h2 : mst = 0
    · rw [if_pos h2] at hget
      match i, hi with
      | Nat.succ n, _ =>
        have : ([task].get? (Nat.succ n)) = none := rfl
        rw [this] at hget
        cases hget
    · rw [if_neg h2, List.get?_map] at hget
      cases hr : (List.range ((estT task + mst - 1) / mst)).get? i with
      | none =>
        rw [hr] at hget
        cases hget
      | some j =>
        have hj : i = j := by
          have hlen := (List.get?_eq_some.mp hr).1
          rw [List.length_range] at hlen
          rw [List.get?_range hlen] at hr
          exact (Option.some.injEq _ _).mp hr
        subst hj
        rw [hr] at hget
        have hfs := Option.some.inj hget
        by_cases hp : 1 < prioT task
        · rw [if_pos hp, ← hfs]
          dsimp only
          rw [if_pos (And.intro hi hp)]
        · have hcond : ¬ (0 < i ∧ 1 < prioT task) := by tauto
          rw [if_neg hp, ← hfs]
          dsimp only
          rw [if_neg hcond]

/-- C3 witness: the general demotion rule applied to the second sub-task of
a 150-minute High task, whose priority stays 1. -/
theorem C3_split_sessions_witness :
    ((suggest_task_splitting { estimated_time := some 150, priority := some 1 } 90).get? 1 =
      some { title := some "Task - Session 2", estimated_time := some 75, priority := some 1,
             is_split_task := some true, original_task_id := some none,
             session_number := some 2, total_sessions := some 2 }) ∧
    (0 : Nat) < 1 ∧
    ({ title := some "Task - Session 2", estimated_time := some 75, priority := some 1,
       is_split_task := some true, original_task_id := some none,
       session_number := some 2, total_sessions := some 2 } : Task).priority =
      if 1 < prioT { estimated_time := some 150, priority := some 1 }
      then some (min 3 (prioT { estimated_time := some 150, priority := some 1 } + 1))
      else ({ estimated_time := some 150, priority := some 1 } : Task).priority :=
  ⟨by decide, by decide,
    C3_split_sessions.2.2 { estimated_time := some 150, priority := some 1 } 90 1 _
      (by decide) (by decide)⟩

/-- C4 counterexample: optimize_schedule_for_energy annotates the records of the caller
in place: after a call on a single-task list the input record has
gained energy_optimized_order and energy_category, so it no longer holds
exactly the fields it held before. -/
theorem C4_counterexample :
    optimize_post_inputs [{ priority := some 1, estimated_time := some 90 }] "morning" ≠
      [{ priority := some 1, estimated_time := some 90 }] := by decide

/-- C4 (amended): the in-place mutation by optimize_schedule_for_energy is
confined to the two energy fields: the list of the caller keeps its length and
every record keeps every other field; the remaining engine operations
build their outputs from copies and leave inputs untouched, as the purity
of their embeddings reflects. -/
theorem C4_mutation_confined (tasks : List Task) (energy_pattern : String) :
    (optimize_post_inputs tasks energy_pattern).length = tasks.length ∧
    ∀ j : Nat, ((optimize_post_inputs tasks energy_pattern).get? j).map clearEnergy =
      (tasks.get? j).map clearEnergy := by
  unfold optimize_post_inputs
  by_cases h : tasks.isEmpty = true
  · rw [if_pos h]
    exact ⟨rfl, fun j => rfl⟩
  · rw [if_neg h]
    constructor
    · rw [List.length_map, List.enum_length]
    · intro j
      rw [List.get?_map, List.get?_enum]
      cases hj : tasks.get? j
      · rfl
      · rfl

/-- C6: the duration tie-break contributes between 0 and 5 points, less
than the 40-point minimum gap between distinct priority tiers and the
20-point minimum gap between adjacent urgency tiers; hence with equal
urgency bonuses a strictly higher priority tier always scores strictly
higher, and with equal priority a strictly higher urgency bonus always
scores strictly higher, whatever the durations. -/
theorem C6_tiebreak_dominance :
    (∀ t : Task, 0 ≤ durationBoost t ∧ durationBoost t ≤ 5) ∧
    (∀ (today : Int) (a b : Task), urgencyBonus today a = urgencyBonus today b →
      priorityPoints (prioT b) < priorityPoints (prioT a) →
      calculate_priority_score today b < calculate_priority_score today a) ∧
    (∀ (today : Int) (a b : Task), prioT a = prioT b →
      urgencyBonus today b < urgencyBonus today a →
      calculate_priority_score today b < calculate_priority_score today a) := by
  have hdb : ∀ t : Task, 0 ≤ durationBoost t ∧ durationBoost t ≤ 5 := by
    intro t
    unfold durationBoost
    split_ifs <;> omega
  have hpp : ∀ p : Int, priorityPoints p = 10 ∨ priorityPoints p = 50 ∨ priorityPoints p = 100 := by
    intro p
    unfold priorityPoints
    split_ifs <;> omega
  have hub : ∀ (today : Int) (t : Task), urgencyBonus today t = 0 ∨ urgencyBonus today t = 20 ∨
      urgencyBonus today t = 40 ∨ urgencyBonus today t = 60 ∨ urgencyBonus today t = 80 := by
    intro today t
    unfold urgencyBonus
    cases t.deadline with
    | none => exact Or.inl rfl
    | some dl =>
      dsimp only
      split_ifs <;> omega
  refine ⟨hdb, ?_, ?_⟩
  · intro today a b hu hp
    have h1 := hdb a
    have h2 := hdb b
    unfold calculate_priority_score
    rcases hpp (prioT a) with h3 | h3 | h3 <;> rcases hpp (prioT b) with h4 | h4 | h4 <;> omega
  · intro today a b hpr hu
    have h1 := hdb a
    have h2 := hdb b
    unfold calculate_priority_score
    rw [hpr]
    rcases hub today a with h3 | h3 | h3 | h3 | h3 <;>
      rcases hub today b with h4 | h4 | h4 | h4 | h4 <;> omega

/-- C6 witness: a High 200-minute task against a Medium 20-minute task,
both undated: the duration boost of the shorter task cannot overcome the
priority-tier gap. -/
theorem C6_tiebreak_dominance_witness :
    (urgencyBonus 0 { priority := some 1, estimated_time := some 200 } =
      urgencyBonus 0 { priority := some 2, estimated_time := some 20 }) ∧
    (priorityPoints (prioT { priority := some 2, estimated_time := some 20 }) <
      priorityPoints (prioT { priority := some 1, estimated_time := some 200 })) ∧
    (calculate_priority_score 0 { priority := some 2, estimated_time := some 20 } <
      calculate_priority_score 0 { priority := some 1, estimated_time := some 200 }) :=
  ⟨by decide, by decide,
    C6_tiebreak_dominance.2.1 0 { priority := some 1, estimated_time := some 200 }
      { priority := some 2, estimated_time := some 20 } (by decide) (by decide)⟩

theorem focusStep_erase (sl bl : Nat) (r1 r2 : Nat → Nat) (task : Task) (L : Bool)
    (needed s : Nat) (st1 st2 : FocusState)
    (hc : st1.session_count = st2.session_count) (hd : st1.draws = st2.draws)
    (hs : st1.sched.map clearSuggestion = st2.sched.map clearSuggestion) :
    (focusStep sl bl r1 task L needed st1 s).session_count =
      (focusStep sl bl r2 task L needed st2 s).session_count ∧
    (focusStep sl bl r1 task L needed st1 s).draws =
      (focusStep sl bl r2 task L needed st2 s).draws ∧
    (focusStep sl bl r1 task L needed st1 s).sched.map clearSuggestion =
      (focusStep sl bl r2 task L needed st2 s).sched.map clearSuggestion := by
  obtain ⟨c1, d1, l1⟩ := st1
  obtain ⟨c2, d2, l2⟩ := st2
  dsimp only at hc hd hs
  subst hc
  subst hd
  unfold focusStep
  by_cases hcond : s < needed - 1 ∨ L = false
  · rw [if_pos hcond, if_pos hcond]
    refine ⟨rfl, rfl, ?_⟩
    dsimp only
    rw [List.map_append, List.map_append, hs]
    rfl
  · rw [if_neg hcond, if_neg hcond]
    refine ⟨rfl, rfl, ?_⟩
    dsimp only
    rw [List.map_append, List.map_append, hs]

theorem foldl_focusStep_erase (sl bl : Nat) (r1 r2 : Nat → Nat) (task : Task) (L : Bool)
    (needed : Nat) :
    ∀ (ns : List Nat) (st1 st2 : FocusState),
      st1.session_count = st2.session_count → st1.draws = st2.draws →
      st1.sched.map clearSuggestion = st2.sched.map clearSuggestion →
      (ns.foldl (focusStep sl bl r1 task L needed) st1).session_count =
        (ns.foldl (focusStep sl bl r2 task L needed) st2).session_count ∧
      (ns.foldl (focusStep sl bl r1 task L needed) st1).draws =
        (ns.foldl (focusStep sl bl r2 task L needed) st2).draws ∧
      (ns.foldl (focusStep sl bl r1 task L needed) st1).sched.map clearSuggestion =
        (ns.foldl (focusStep sl bl r2 task L needed) st2).sched.map clearSuggestion := by
  intro ns
  induction ns with
  | nil => intro st1 st2 hc hd hs; exact ⟨hc, hd, hs⟩
  | cons n rest ih =>
    intro st1 st2 hc hd hs
    obtain ⟨h1, h2, h3⟩ := focusStep_erase sl bl r1 r2 task L needed n st1 st2 hc hd hs
    exact ih _ _ h1 h2 h3

theorem foldl_processTask_erase (sl bl : Nat) (r1 r2 : Nat → Nat) (lastTask : Task) :
    ∀ (tl : List Task) (st1 st2 : FocusState),
      st1.session_count = st2.session_count → st1.draws = st2.draws →
      st1.sched.map clearSuggestion = st2.sched.map clearSuggestion →
      (tl.foldl (processTask sl bl r1 lastTask) st1).session_count =
        (tl.foldl (processTask sl bl r2 lastTask) st2).session_count ∧
      (tl.foldl (processTask sl bl r1 lastTask) st1).draws =
        (tl.foldl (processTask sl bl r2 lastTask) st2).draws ∧
      (tl.foldl (processTask sl bl r1 lastTask) st1).sched.map clearSuggestion =
        (tl.foldl (processTask sl bl r2 lastTask) st2).sched.map clearSuggestion := by
  intro tl
  induction tl with
  | nil => intro st1 st2 hc hd hs; exact ⟨hc, hd, hs⟩
  | cons t rest ih =>
    intro st1 st2 hc hd hs
    obtain ⟨h1, h2, h3⟩ := foldl_focusStep_erase sl bl r1 r2 t (t == lastTask)
      ((estT t + sl - 1) / sl) (List.range ((estT t + sl - 1) / sl)) st1 st2 hc hd hs
    exact ih _ _ h1 h2 h3

/-- C5 counterexample: two runs of generate_focus_schedule on the same
task list and parameters but different states of the random source return
different schedules: the break-suggestion text differs, so the output is
not a function of the inputs alone. -/
theorem C5_counterexample :
    generate_focus_schedule [{ estimated_time := some 30 }] 25 5 (fun _ => 0) ≠
      generate_focus_schedule [{ estimated_time := some 30 }] 25 5 (fun _ => 1) := by decide

/-- C5 (amended): every engine operation except the break-suggestion text
is deterministic: erasing the suggestion field, generate_focus_schedule
returns identical plans for any two states of the random source, so all
session and break structure is a pure function of the inputs. -/
theorem C5_deterministic_up_to_suggestion (tasks : List Task) (sl bl : Nat)
    (r1 r2 : Nat → Nat) :
    (generate_focus_schedule tasks sl bl r1).map clearSuggestion =
      (generate_focus_schedule tasks sl bl r2).map clearSuggestion := by
  unfold generate_focus_schedule
  by_cases h : tasks = []
  · rw [dif_pos h, dif_pos h]
  · rw [dif_neg h, dif_neg h]
    by_cases hsl : sl = 0
    · rw [if_pos hsl, if_pos hsl]
    · rw [if_neg hsl, if_neg hsl]
      exact (foldl_processTask_erase sl bl r1 r2 (tasks.getLast h) tasks
        { session_count := 0, draws := 0, sched := [] }
        { session_count := 0, draws := 0, sched := [] } rfl rfl rfl).2.2

theorem focusStep_pair (sl bl : Nat) (rng : Nat → Nat) (task : Task) (L : Bool)
    (needed s : Nat) (st : FocusState) (hcond : s < needed - 1 ∨ L = false)
    (hrun : st.sched.foldl (cadStep bl) (CadState.waitFocus 0) =
      CadState.waitFocus st.session_count) :
    (focusStep sl bl rng task L needed st s).sched.foldl (cadStep bl) (CadState.waitFocus 0) =
      CadState.waitFocus (focusStep sl bl rng task L needed st s).session_count := by
  unfold focusStep
  rw [if_pos hcond]
  dsimp only
  rw [List.foldl_append, hrun, List.foldl_cons, List.foldl_cons, List.foldl_nil]
  by_cases h4 : (st.session_count + 1) % 4 = 0
  · simp [cadStep, isFocus, goodBreak, h4]
  · simp [cadStep, isFocus, goodBreak, h4]

theorem focusStep_endRun (sl bl : Nat) (rng : Nat → Nat) (task : Task) (L : Bool)
    (needed s : Nat) (st : FocusState) (hcond : ¬ (s < needed - 1 ∨ L = false))
    (hrun : st.sched.foldl (cadStep bl) (CadState.waitFocus 0) =
      CadState.waitFocus st.session_count) :
    (focusStep sl bl rng task L needed st s).sched.foldl (cadStep bl) (CadState.waitFocus 0) =
      CadState.waitBreak (st.session_count + 1) := by
  unfold focusStep
  rw [if_neg hcond]
  dsimp only
  rw [List.foldl_append, hrun, List.foldl_cons, List.foldl_nil]
  simp [cadStep, isFocus]

theorem foldl_range_pairs (sl bl : Nat) (rng : Nat → Nat) (task : Task) (L : Bool)
    (needed : Nat) :
    ∀ (m : Nat), (∀ s, s < m → (s < needed - 1 ∨ L = false)) →
    ∀ st : FocusState, st.sched.foldl (cadStep bl) (CadState.waitFocus 0) =
      CadState.waitFocus st.session_count →
    ((List.range m).foldl (focusStep sl bl rng task L needed) st).sched.foldl (cadStep bl)
        (CadState.waitFocus 0) =
      CadState.waitFocus
        ((List.range m).foldl (focusStep sl bl rng task L needed) st).session_count := by
  intro m
  induction m with
  | zero =>
    intro _ st h
    simpa using h
  | succ n ih =>
    intro hbound st h
    rw [List.range_succ, List.foldl_append, List.foldl_cons, List.foldl_nil]
    exact focusStep_pair sl bl rng task L needed n _ (hbound n (by omega))
      (ih (fun s hs => hbound s (by omega)) st h)

theorem processTask_notLast (sl bl : Nat) (rng : Nat → Nat) (lastTask task : Task)
    (st : FocusState) (hne : (task == lastTask) = false)
    (hrun : st.sched.foldl (cadStep bl) (CadState.waitFocus 0) =
      CadState.waitFocus st.session_count) :
    (processTask sl bl rng lastTask st task).sched.foldl (cadStep bl) (CadState.waitFocus 0) =
      CadState.waitFocus (processTask sl bl rng lastTask st task).session_count := by
  unfold processTask
  rw [hne]
  exact foldl_range_pairs sl bl rng task false ((estT task + sl - 1) / sl) _
    (fun s _ => Or.inr rfl) st hrun

theorem processTask_lastRun (sl bl : Nat) (rng : Nat → Nat) (lastTask : Task)
    (st : FocusState) (hsl : 0 < sl) (hest : 1 ≤ estT lastTask)
    (hrun : st.sched.foldl (cadStep bl) (CadState.waitFocus 0) =
      CadState.waitFocus st.session_count) :
    ∃ k, (processTask sl bl rng lastTask st lastTask).sched.foldl (cadStep bl)
      (CadState.waitFocus 0) = CadState.waitBreak k := by
  unfold processTask
  rw [beq_self_eq_true]
  dsimp only
  have hneed : 1 ≤ (estT lastTask + sl - 1) / sl := by
    rw [Nat.one_le_div_iff hsl]
    omega
  have heq : (estT lastTask + sl - 1) / sl = ((estT lastTask + sl - 1) / sl - 1) + 1 := by omega
  have hsplit : List.range ((estT lastTask + sl - 1) / sl) =
      List.range ((estT lastTask + sl - 1) / sl - 1) ++ [(estT lastTask + sl - 1) / sl - 1] := by
    conv_lhs => rw [heq]
    rw [List.range_succ]
  rw [hsplit, List.foldl_append, List.foldl_cons, List.foldl_nil]
  have hprev := foldl_range_pairs sl bl rng lastTask true ((estT lastTask + sl - 1) / sl)
    ((estT lastTask + sl - 1) / sl - 1) (fun s hs => Or.inl (by omega)) st hrun
  refine ⟨_, focusStep_endRun sl bl rng lastTask true ((estT lastTask + sl - 1) / sl)
    ((estT lastTask + sl - 1) / sl - 1) _ ?_ hprev⟩
  intro hc
  rcases hc with hc | hc
  · omega
  · exact absurd hc (by decide)

theorem foldl_processTask_pairs (sl bl : Nat) (rng : Nat → Nat) (lastTask : Task) :
    ∀ (tl : List Task) (st : FocusState),
      (∀ t ∈ tl, (t == lastTask) = false) →
      st.sched.foldl (cadStep bl) (CadState.waitFocus 0) =
        CadState.waitFocus st.session_count →
      (tl.foldl (processTask sl bl rng lastTask) st).sched.foldl (cadStep bl)
          (CadState.waitFocus 0) =
        CadState.waitFocus (tl.foldl (processTask sl bl rng lastTask) st).session_count := by
  intro tl
  induction tl with
  | nil => intro st _ h; exact h
  | cons t rest ih =>
    intro st hne h
    rw [List.foldl_cons]
    exact ih _ (fun u hu => hne u (List.mem_cons_of_mem t hu))
      (processTask_notLast sl bl rng lastTask t st (hne t (List.mem_cons_self t rest)) h)

/-- C8 counterexample: with two value-equal 30-minute tasks the source
compares each task to the last list element by value, so the final session
of the first task is wrongly treated as last and gets no break: two consecutive
focus sessions appear and the claimed cadence fails. -/
theorem C8_counterexample :
    cadenceOk 5 (generate_focus_schedule
      [{ estimated_time := some 30 }, { estimated_time := some 30 }] 25 5 (fun _ => 0))
      = false := by decide

/-- C8 (amended): whenever no earlier task is value-equal to the final task
of the list (and durations are positive, per the data model), a break
follows every focus session except the very last emitted session, none
follows that one, and the break after the k-th emitted session is long
(3 times break_length) exactly when k is a multiple of 4, otherwise short;
with a value-duplicate of the last task the cadence can fail (see the
counterexample). -/
theorem C8_break_cadence (tasks : List Task) (sl bl : Nat) (rng : Nat → Nat)
    (hdist : ∀ t ∈ tasks.dropLast, tasks.getLast? ≠ some t)
    (hpos : ∀ t ∈ tasks, 1 ≤ estT t) :
    cadenceOk bl (generate_focus_schedule tasks sl bl rng) = true := by
  unfold generate_focus_schedule
  by_cases h : tasks = []
  · rw [dif_pos h]
    rfl
  · rw [dif_neg h]
    by_cases hsl : sl = 0
    · rw [if_pos hsl]
      rfl
    · rw [if_neg hsl]
      have hsplit : tasks.dropLast ++ [tasks.getLast h] = tasks :=
        List.dropLast_append_getLast h
      have hfold : tasks.foldl (processTask sl bl rng (tasks.getLast h))
          { session_count := 0, draws := 0, sched := [] } =
          (tasks.dropLast ++ [tasks.getLast h]).foldl
            (processTask sl bl rng (tasks.getLast h))
            { session_count := 0, draws := 0, sched := [] } := by
        rw [hsplit]
      rw [hfold, List.foldl_append, List.foldl_cons, List.foldl_nil]
      have hne : ∀ t ∈ tasks.dropLast, (t == tasks.getLast h) = false := by
        intro t ht
        have hgl := List.getLast?_eq_getLast tasks h
        have hd := hdist t ht
        rw [hgl] at hd
        have hne2 : t ≠ tasks.getLast h := fun he => hd (by rw [he])
        exact beq_eq_false_iff_ne.mpr hne2
      have hmid := foldl_processTask_pairs sl bl rng (tasks.getLast h) tasks.dropLast
        { session_count := 0, draws := 0, sched := [] } hne rfl
      obtain ⟨k, hk⟩ := processTask_lastRun sl bl rng (tasks.getLast h) _
        (Nat.pos_of_ne_zero hsl) (hpos _ (List.getLast_mem h)) hmid
      unfold cadenceOk
      rw [hk]

/-- C8 witness: two distinct tasks of 30 and 50 minutes with 25-minute
sessions satisfy the hypotheses, and their plan passes the cadence check. -/
theorem C8_break_cadence_witness :
    (∀ t ∈ ([{ estimated_time := some 30 }, { estimated_time := some 50 }] :
        List Task).dropLast,
      ([{ estimated_time := some 30 }, { estimated_time := some 50 }] :
        List Task).getLast? ≠ some t) ∧
    (∀ t ∈ ([{ estimated_time := some 30 }, { estimated_time := some 50 }] : List Task),
      1 ≤ estT t) ∧
    cadenceOk 5 (generate_focus_schedule
      [{ estimated_time := some 30 }, { estimated_time := some 50 }] 25 5 (fun _ => 0))
      = true :=
  ⟨by decide, by decide,
    C8_break_cadence [{ estimated_time := some 30 }, { estimated_time := some 50 }] 25 5
      (fun _ => 0) (by decide) (by decide)⟩

end Schedulo
